import Mathlib

/-!
Verification of the two command-line tools in this repository: the
JUnit-to-Xray import script (`tools/test_script.py`) and the S3 upload
tool (`main.py` with `storage/bucket.py`).  The definitions below are a
shallow embedding of the Python source; the theorems at the end of the
file settle the specification's claims against them.
-/

namespace TestScript

/-- Xray status constants (`class Status` in `tools/test_script.py`).
The Python code stores statuses as strings but only ever constructs
these four values, so we embed them as a closed enumeration. -/
inductive Status where
  | PASS
  | FAIL
  | TODO
  | CONDITIONALPASS
deriving DecidableEq, Repr

/-- The string each status constant denotes in the Python source. -/
def Status.toStr : Status → String
  | Status.PASS => "PASS"
  | Status.FAIL => "FAIL"
  | Status.TODO => "TODO"
  | Status.CONDITIONALPASS => "CONDITIONALPASS"

/-- The `TestResult` dataclass: a single test case result parsed from
JUnit XML.  Durations (Python floats) are embedded as rationals. -/
structure TestResult where
  name : String
  full_name : String
  status : Status
  comment : String
  duration : ℚ
deriving DecidableEq, Repr

/-- The `AggregatedResult` dataclass: the aggregated result for all
variations of one parametrized test. -/
structure AggregatedResult where
  test_key : String
  status : Status
  variations : List TestResult
  total_duration : ℚ
deriving DecidableEq, Repr

/-- A fresh `AggregatedResult(test_key=key)` with the dataclass
defaults: status `PASS`, no variations, zero duration. -/
def mkAggregated (key : String) : AggregatedResult :=
  ⟨key, Status.PASS, [], 0⟩

/-- The status update performed by `AggregatedResult.add_variation`
(the `if`/`elif` chain at lines 87-92 of `tools/test_script.py`). -/
def updateStatus (s : Status) (new : Status) : Status :=
  if new = Status.FAIL then Status.FAIL
  else if new = Status.TODO ∧ s ≠ Status.FAIL then Status.TODO
  else if new = Status.CONDITIONALPASS ∧ s = Status.PASS then Status.CONDITIONALPASS
  else s

/-- `AggregatedResult.add_variation`: append the variation, accumulate
its duration, and update the overall status by the priority rule. -/
def AggregatedResult.add_variation (a : AggregatedResult) (result : TestResult) :
    AggregatedResult :=
  ⟨a.test_key, updateStatus a.status result.status,
    a.variations ++ [result], a.total_duration + result.duration⟩

/-- The specification's priority rule, transcribed from its formula:
`status' = FAIL if (status==FAIL or new==FAIL) else TODO if (status==TODO
or new==TODO) else CONDITIONALPASS if (status==CONDITIONALPASS or
new==CONDITIONALPASS) else PASS`. -/
def specStatusUpdate (s new : Status) : Status :=
  if s = Status.FAIL ∨ new = Status.FAIL then Status.FAIL
  else if s = Status.TODO ∨ new = Status.TODO then Status.TODO
  else if s = Status.CONDITIONALPASS ∨ new = Status.CONDITIONALPASS then
    Status.CONDITIONALPASS
  else Status.PASS

theorem updateStatus_eq_spec (s new : Status) :
    updateStatus s new = specStatusUpdate s new := by
  cases s <;> cases new <;> rfl

theorem updateStatus_right_comm (s a b : Status) :
    updateStatus (updateStatus s a) b = updateStatus (updateStatus s b) a := by
  cases s <;> cases a <;> cases b <;> rfl

/-- The status of a fold of `add_variation` only depends on the statuses
folded with `updateStatus`. -/
theorem status_foldl_add_variation (a : AggregatedResult) (l : List TestResult) :
    (l.foldl AggregatedResult.add_variation a).status =
      l.foldl (fun s r => updateStatus s r.status) a.status := by
  induction l generalizing a with
  | nil => rfl
  | cons r l ih =>
    simp only [List.foldl_cons]
    rw [ih]
    rfl

/-- Folding `updateStatus` is invariant under permutations of the
variation list. -/
theorem statusFold_perm (s : Status) {l l' : List TestResult} (h : l.Perm l') :
    l.foldl (fun t r => updateStatus t r.status) s =
      l'.foldl (fun t r => updateStatus t r.status) s := by
  induction h generalizing s with
  | nil => rfl
  | cons x _ ih =>
    simp only [List.foldl_cons]
    exact ih _
  | swap x y l =>
    simp only [List.foldl_cons]
    rw [updateStatus_right_comm]
  | trans _ _ ih1 ih2 => exact (ih1 s).trans (ih2 s)

/-- Python's `str.split(sep)` for a single-character separator, over the
character list of the string: `"a b".split(" ") = ["a", "b"]` and
`"".split(" ") = [""]`. -/
def charSplit (c : Char) : List Char → List (List Char)
  | [] => [[]]
  | x :: xs =>
    if x = c then [] :: charSplit c xs
    else
      match charSplit c xs with
      | [] => [[x]]
      | h :: t => (x :: h) :: t

/-- The `clean_name` derivation at line 418 of `tools/test_script.py`:
`full_name.split(" ")[0].split("[")[0]`. -/
def cleanName (full_name : String) : String :=
  String.mk ((charSplit '[' ((charSplit ' ' full_name.data).headD [])).headD [])

/-- The derivation as the specification words it: truncate at the first
space, then truncate at the first opening bracket. -/
def specCleanName (full_name : String) : String :=
  String.mk ((full_name.data.takeWhile (fun x => x ≠ ' ')).takeWhile (fun x => x ≠ '['))

theorem charSplit_head (c : Char) (l : List Char) :
    (charSplit c l).headD [] = l.takeWhile (fun x => x ≠ c) := by
  induction l with
  | nil => rfl
  | cons x xs ih =>
    by_cases hx : x = c
    · simp [charSplit, hx, List.takeWhile_cons]
    · have hd : decide (x ≠ c) = true := decide_eq_true hx
      simp only [charSplit, if_neg hx]
      cases hcs : charSplit c xs with
      | nil =>
        rw [hcs] at ih
        simp only [List.headD] at ih
        simp only [List.headD, List.takeWhile_cons, hd, if_true, ← ih]
      | cons h t =>
        rw [hcs] at ih
        simp only [List.headD] at ih
        simp only [List.headD, List.takeWhile_cons, hd, if_true, ih]

theorem strData_mk (l : List Char) : (String.mk l).data = l := rfl

theorem cleanName_eq_spec (s : String) : cleanName s = specCleanName s := by
  unfold cleanName specCleanName
  rw [charSplit_head, charSplit_head]

/-- Characters surviving the double truncation are neither spaces nor
opening brackets. -/
theorem mem_cleanName_data (s : String) (x : Char)
    (hx : x ∈ (cleanName s).data) : x ≠ ' ' ∧ x ≠ '[' := by
  rw [cleanName_eq_spec] at hx
  unfold specCleanName at hx
  rw [strData_mk] at hx
  constructor
  · have h1 := (List.takeWhile_prefix (fun y : Char => decide (y ≠ '['))).subset hx
    simpa using List.mem_takeWhile_imp h1
  · simpa using List.mem_takeWhile_imp hx

theorem cleanName_no_space_bracket (s : String)
    (h : ∀ x ∈ s.data, x ≠ ' ' ∧ x ≠ '[') : cleanName s = s := by
  rw [cleanName_eq_spec]
  unfold specCleanName
  rw [List.takeWhile_eq_self_iff.mpr (fun x hx => decide_eq_true (h x hx).1)]
  rw [List.takeWhile_eq_self_iff.mpr (fun x hx => decide_eq_true (h x hx).2)]

theorem cleanName_idem (s : String) : cleanName (cleanName s) = cleanName s :=
  cleanName_no_space_bracket _ (mem_cleanName_data s)

/-- Shallow model of an `xml.etree.ElementTree` element: a tag, the
attribute mapping, the optional leading text, and the child elements.
The `time` field carries the testcase's `time` attribute already parsed
to a number (the source reads it as `float(testcase.get("time", "0"))`;
numeric-literal parsing is below this embedding). -/
inductive XmlElement where
  | mk (tag : String) (attrs : List (String × String)) (text : Option String)
      (time : ℚ) (children : List XmlElement)
deriving Repr

def XmlElement.tag : XmlElement → String
  | ⟨t, _, _, _, _⟩ => t

def XmlElement.attrs : XmlElement → List (String × String)
  | ⟨_, a, _, _, _⟩ => a

def XmlElement.text : XmlElement → Option String
  | ⟨_, _, tx, _, _⟩ => tx

def XmlElement.time : XmlElement → ℚ
  | ⟨_, _, _, ti, _⟩ => ti

def XmlElement.children : XmlElement → List XmlElement
  | ⟨_, _, _, _, cs⟩ => cs

/-- `Element.get(name, fallback)`: attribute lookup with a default. -/
def XmlElement.get (e : XmlElement) (name fallback : String) : String :=
  (e.attrs.lookup name).getD fallback

/-- `Element.find(tag)`: the first direct child with the given tag. -/
def XmlElement.find (e : XmlElement) (tag : String) : Option XmlElement :=
  e.children.find? (fun c => c.tag == tag)

/-- All elements of a forest, in document order, each followed by its
descendants (preorder). -/
def elemsIn : List XmlElement → List XmlElement
  | [] => []
  | XmlElement.mk t a tx ti cs :: rest =>
      XmlElement.mk t a tx ti cs :: (elemsIn cs ++ elemsIn rest)

/-- `root.findall(".//testcase")`: every testcase element strictly below
the root, in document order. -/
def findallTestcases (root : XmlElement) : List XmlElement :=
  (elemsIn root.children).filter (fun e => e.tag == "testcase")

/-- Python's lowercasing of a string (`str.lower`), per character. -/
def lowerStr (s : String) : String :=
  String.mk (s.data.map Char.toLower)

/-- Python's character slice `s[:n]`. -/
def strTake (s : String) (n : Nat) : String :=
  String.mk (s.data.take n)

/-- Python's substring test `needle in haystack`. -/
def containsSub (haystack needle : String) : Prop :=
  needle.data <:+: haystack.data

instance (haystack needle : String) : Decidable (containsSub haystack needle) :=
  inferInstanceAs (Decidable (_ <:+: _))

/-- `JUnitParser._extract_message`: the `message` attribute, and when
the element's body text is non-empty, a blank line followed by the
first 2000 characters of that text. -/
def extract_message (element : XmlElement) : String :=
  let msg := element.get "message" ""
  match element.text with
  | some t => if t ≠ "" then msg ++ "\n\n" ++ strTake t 2000 else msg
  | none => msg

/-- `JUnitParser._parse_testcase`: derive one `TestResult` from a
testcase element (lines 409-447 of `tools/test_script.py`). -/
def parse_testcase (testcase : XmlElement) : TestResult :=
  let full_name := testcase.get "name" ""
  let duration := testcase.time
  let clean_name := cleanName full_name
  match testcase.find "failure" with
  | some failure => ⟨clean_name, full_name, Status.FAIL, extract_message failure, duration⟩
  | none =>
    match testcase.find "error" with
    | some err => ⟨clean_name, full_name, Status.FAIL, extract_message err, duration⟩
    | none =>
      match testcase.find "skipped" with
      | some sk =>
        let skip_type := lowerStr (sk.get "type" "")
        let skip_msg := sk.get "message" ""
        if containsSub skip_type "xfail" ∧ ¬ containsSub skip_type "skip" then
          ⟨clean_name, full_name, Status.CONDITIONALPASS, "XFAIL: " ++ skip_msg, duration⟩
        else
          ⟨clean_name, full_name, Status.TODO,
            if skip_msg = "" then "Skipped" else skip_msg, duration⟩
      | none => ⟨clean_name, full_name, Status.PASS, "", duration⟩

/-- The `ParsedResults` dataclass. -/
structure ParsedResults where
  total : Nat
  passed : Nat
  failed : Nat
  skipped : Nat
  tests : List TestResult
deriving DecidableEq, Repr

/-- One iteration of the loop in `JUnitParser.parse`: record the parsed
testcase and bump exactly one of the three category counters. -/
def parseStep (results : ParsedResults) (testcase : XmlElement) : ParsedResults :=
  let result := parse_testcase testcase
  let results' : ParsedResults :=
    ⟨results.total + 1, results.passed, results.failed, results.skipped,
      results.tests ++ [result]⟩
  if result.status = Status.PASS ∨ result.status = Status.CONDITIONALPASS then
    ⟨results'.total, results'.passed + 1, results'.failed, results'.skipped, results'.tests⟩
  else if result.status = Status.FAIL then
    ⟨results'.total, results'.passed, results'.failed + 1, results'.skipped, results'.tests⟩
  else
    ⟨results'.total, results'.passed, results'.failed, results'.skipped + 1, results'.tests⟩

/-- `JUnitParser.parse` after the XML document has been read into a
tree: fold the per-testcase processing over `root.findall(".//testcase")`.
(The missing-file and malformed-XML failures happen before this point.) -/
def parse (root : XmlElement) : ParsedResults :=
  (findallTestcases root).foldl parseStep ⟨0, 0, 0, 0, []⟩

theorem parseStep_counts (r : ParsedResults) (tc : XmlElement) :
    (parseStep r tc).total = r.total + 1 ∧
    (parseStep r tc).passed + (parseStep r tc).failed + (parseStep r tc).skipped
      = r.passed + r.failed + r.skipped + 1 ∧
    (parseStep r tc).tests = r.tests ++ [parse_testcase tc] := by
  simp only [parseStep]
  split_ifs <;> simp <;> omega

theorem foldl_parseStep_counts (tl : List XmlElement) (r : ParsedResults) :
    (tl.foldl parseStep r).total = r.total + tl.length ∧
    (tl.foldl parseStep r).passed + (tl.foldl parseStep r).failed
        + (tl.foldl parseStep r).skipped
      = r.passed + r.failed + r.skipped + tl.length := by
  induction tl generalizing r with
  | nil => simp
  | cons tc tl ih =>
    simp only [List.foldl_cons, List.length_cons]
    obtain ⟨h1, h2⟩ := ih (parseStep r tc)
    obtain ⟨s1, s2, _⟩ := parseStep_counts r tc
    refine ⟨?_, ?_⟩
    · rw [h1, s1]; omega
    · rw [h2, s2]; omega

/-- `ResultAggregator.aggregate`'s dict update: find or create the
`AggregatedResult` entry for `name` (insertion order preserved, creation
with `AggregatedResult(test_key=key)` defaults) and add the variation. -/
def addToAggregates :
    List (String × AggregatedResult) → String → String → TestResult →
      List (String × AggregatedResult)
  | [], name, key, t => [(name, (mkAggregated key).add_variation t)]
  | (k, a) :: rest, name, key, t =>
    if k = name then (k, a.add_variation t) :: rest
    else (k, a) :: addToAggregates rest name key t

/-- One iteration of the loop in `ResultAggregator.aggregate`
(lines 487-495 of `tools/test_script.py`): a record whose clean name is
missing from the mapping lands in the unmatched set, any other record
is folded into its aggregate. -/
def aggregateStep (mapping : List (String × String))
    (st : List (String × AggregatedResult) × List String) (test : TestResult) :
    List (String × AggregatedResult) × List String :=
  match mapping.lookup test.name with
  | none => (st.1, if test.name ∈ st.2 then st.2 else st.2 ++ [test.name])
  | some key => (addToAggregates st.1 test.name key test, st.2)

/-- `ResultAggregator.aggregate`: fold the records in encounter order,
returning the aggregates dict (insertion-ordered) and the unmatched
name set (modelled as a duplicate-free list). -/
def aggregate (mapping : List (String × String)) (results : ParsedResults) :
    List (String × AggregatedResult) × List String :=
  results.tests.foldl (aggregateStep mapping) ([], [])

/-- Total number of variations over all aggregate groups. -/
def sumVariations (aggs : List (String × AggregatedResult)) : Nat :=
  (aggs.map (fun p => p.2.variations.length)).sum

theorem sumVariations_addToAggregates (l : List (String × AggregatedResult))
    (name key : String) (t : TestResult) :
    sumVariations (addToAggregates l name key t) = sumVariations l + 1 := by
  induction l with
  | nil => simp [addToAggregates, sumVariations, AggregatedResult.add_variation, mkAggregated]
  | cons p rest ih =>
    obtain ⟨k, a⟩ := p
    by_cases hk : k = name
    · simp [addToAggregates, hk, sumVariations, AggregatedResult.add_variation]
      omega
    · simp only [addToAggregates, if_neg hk]
      simp only [sumVariations, List.map_cons, List.sum_cons] at ih ⊢
      omega

theorem mem_keys_addToAggregates (l : List (String × AggregatedResult))
    (name key : String) (t : TestResult) (n : String)
    (hn : n ∈ (addToAggregates l name key t).map Prod.fst) :
    n ∈ l.map Prod.fst ∨ n = name := by
  induction l with
  | nil =>
    simp [addToAggregates] at hn
    exact Or.inr hn
  | cons p rest ih =>
    obtain ⟨k, a⟩ := p
    by_cases hk : k = name
    · simp only [addToAggregates, if_pos hk, List.map_cons, List.mem_cons] at hn ⊢
      tauto
    · simp only [addToAggregates, if_neg hk, List.map_cons, List.mem_cons] at hn ⊢
      rcases hn with h | h
      · exact Or.inl (Or.inl h)
      · rcases ih h with h' | h'
        · exact Or.inl (Or.inr h')
        · exact Or.inr h'

theorem aggregate_fold_keys (mapping : List (String × String))
    (tests : List TestResult) (st : List (String × AggregatedResult) × List String)
    (h : ∀ n ∈ st.1.map Prod.fst, (mapping.lookup n).isSome = true) :
    ∀ n ∈ (tests.foldl (aggregateStep mapping) st).1.map Prod.fst,
      (mapping.lookup n).isSome = true := by
  induction tests generalizing st with
  | nil => exact h
  | cons t ts ih =>
    simp only [List.foldl_cons]
    refine ih _ ?_
    intro n hn
    unfold aggregateStep at hn
    cases hmap : mapping.lookup t.name with
    | none =>
      rw [hmap] at hn
      exact h n hn
    | some key =>
      rw [hmap] at hn
      rcases mem_keys_addToAggregates _ _ _ _ _ hn with h' | h'
      · exact h n h'
      · rw [h', hmap]; rfl

theorem aggregate_fold_unmatched (mapping : List (String × String))
    (tests : List TestResult) (st : List (String × AggregatedResult) × List String)
    (h : ∀ n ∈ st.2, mapping.lookup n = none) :
    ∀ n ∈ (tests.foldl (aggregateStep mapping) st).2, mapping.lookup n = none := by
  induction tests generalizing st with
  | nil => exact h
  | cons t ts ih =>
    simp only [List.foldl_cons]
    refine ih _ ?_
    intro n hn
    unfold aggregateStep at hn
    cases hmap : mapping.lookup t.name with
    | none =>
      rw [hmap] at hn
      by_cases hmem : t.name ∈ st.2
      · rw [if_pos hmem] at hn
        exact h n hn
      · rw [if_neg hmem] at hn
        rcases List.mem_append.mp hn with h' | h'
        · exact h n h'
        · rw [List.mem_singleton.mp h']
          exact hmap
    | some key =>
      rw [hmap] at hn
      exact h n hn

theorem aggregate_fold_sum (mapping : List (String × String))
    (tests : List TestResult) (st : List (String × AggregatedResult) × List String) :
    sumVariations (tests.foldl (aggregateStep mapping) st).1 =
      sumVariations st.1
        + (tests.filter (fun t => (mapping.lookup t.name).isSome)).length := by
  induction tests generalizing st with
  | nil => simp
  | cons t ts ih =>
    simp only [List.foldl_cons, List.filter_cons]
    rw [ih]
    unfold aggregateStep
    cases hmap : mapping.lookup t.name with
    | none => simp [hmap]
    | some key =>
      simp only [hmap, Option.isSome_some, if_pos]
      rw [sumVariations_addToAggregates]
      simp only [List.length_cons]
      omega

theorem length_filter_lookup (mapping : List (String × String))
    (l : List TestResult) :
    (l.filter (fun t => (mapping.lookup t.name).isSome)).length
      + (l.filter (fun t => mapping.lookup t.name = none)).length = l.length := by
  induction l with
  | nil => rfl
  | cons t ts ih =>
    simp only [List.filter_cons]
    cases hmap : mapping.lookup t.name <;> simp [hmap] <;> omega

theorem aggregate_fold_unmatched_mono (mapping : List (String × String))
    (tests : List TestResult) (st : List (String × AggregatedResult) × List String)
    (n : String) (hn : n ∈ st.2) :
    n ∈ (tests.foldl (aggregateStep mapping) st).2 := by
  induction tests generalizing st with
  | nil => exact hn
  | cons t ts ih =>
    simp only [List.foldl_cons]
    refine ih _ ?_
    unfold aggregateStep
    cases mapping.lookup t.name with
    | none =>
      by_cases hmem : t.name ∈ st.2
      · rw [if_pos hmem]; exact hn
      · rw [if_neg hmem]; exact List.mem_append_left _ hn
    | some key => exact hn

theorem aggregate_fold_empty_map (tests : List TestResult)
    (st : List (String × AggregatedResult) × List String) :
    (tests.foldl (aggregateStep []) st).1 = st.1 := by
  induction tests generalizing st with
  | nil => rfl
  | cons t ts ih =>
    simp only [List.foldl_cons]
    rw [ih]
    rfl

theorem aggregate_fold_empty_map_names (tests : List TestResult)
    (st : List (String × AggregatedResult) × List String) :
    ∀ t ∈ tests, t.name ∈ (tests.foldl (aggregateStep []) st).2 := by
  induction tests generalizing st with
  | nil => intro t ht; cases ht
  | cons t ts ih =>
    intro u hu
    simp only [List.foldl_cons]
    rcases List.mem_cons.mp hu with h | h
    · subst h
      refine aggregate_fold_unmatched_mono _ _ _ _ ?_
      show u.name ∈ (aggregateStep [] st u).2
      unfold aggregateStep
      simp only [List.lookup_nil]
      by_cases hmem : u.name ∈ st.2
      · rw [if_pos hmem]; exact hmem
      · rw [if_neg hmem]; exact List.mem_append_right _ (List.mem_singleton.mpr rfl)
    · exact ih _ u h

/-- The `status_icons` mapping used by `build_comment`; with the closed
status type every status has an icon, so the `"?"` fallback of
`dict.get` is unreachable. -/
def statusIcon : Status → String
  | Status.PASS => "[PASS]"
  | Status.FAIL => "[FAIL]"
  | Status.TODO => "[SKIP]"
  | Status.CONDITIONALPASS => "[XFAIL]"

/-- Fixed-point rendering with two decimals, modelling the format
`.2f` applied to durations (rounds to the nearest hundredth). -/
def fmt2 (q : ℚ) : String :=
  let c : Int := Int.fdiv (q.num * 200 + Int.ofNat q.den) (2 * Int.ofNat q.den)
  let sign := if c < 0 then "-" else ""
  let n := c.natAbs
  sign ++ toString (n / 100) ++ "." ++
    (if n % 100 < 10 then "0" else "") ++ toString (n % 100)

/-- One variation line of the comment:
`f"{icon} {var.full_name} - {var.status} ({var.duration:.2f}s)"`. -/
def variationLine (var : TestResult) : String :=
  statusIcon var.status ++ " " ++ var.full_name ++ " - " ++ var.status.toStr ++
    " (" ++ fmt2 var.duration ++ "s)"

/-- `AggregatedResult.build_comment` (lines 94-123 of
`tools/test_script.py`). -/
def AggregatedResult.build_comment (a : AggregatedResult) : String :=
  let lines : List String :=
    if 1 < a.variations.length then
      ["Parametrized test with " ++ toString a.variations.length ++ " variations:\n"]
    else []
  let lines := lines ++ a.variations.map variationLine
  let failed := a.variations.filter (fun v => v.status == Status.FAIL && v.comment != "")
  let lines := lines ++
    (if failed = [] then []
     else "\n--- Failure Details ---" ::
       (failed.take 5).flatMap (fun v => ["\n" ++ v.full_name ++ ":", strTake v.comment 1000]))
  String.intercalate "\n" lines

/-- The comment layout as the specification describes it: a line stating
the variation count exactly when there is more than one variation, one
line per variation in variation order, and a Failure Details block
exactly when some variation failed with a non-empty detail, listing at
most the first five such variations with details cut at 1000
characters. -/
def specCommentLines (a : AggregatedResult) : List String :=
  (if 1 < a.variations.length then
    ["Parametrized test with " ++ toString a.variations.length ++ " variations:\n"]
   else [])
  ++ a.variations.map variationLine
  ++ (if (a.variations.filter (fun v => v.status == Status.FAIL && v.comment != "")) = []
      then []
      else "\n--- Failure Details ---" ::
        ((a.variations.filter
            (fun v => v.status == Status.FAIL && v.comment != "")).take 5).flatMap
          (fun v => ["\n" ++ v.full_name ++ ":", strTake v.comment 1000]))

/-- The dict produced by `AggregatedResult.to_dict`. -/
structure ResultPayload where
  test_key : String
  status : Status
  comment : String
  duration : ℚ
deriving Repr

def AggregatedResult.to_dict (a : AggregatedResult) : ResultPayload :=
  ⟨a.test_key, a.status, a.build_comment, a.total_duration⟩

/-- One entry of the body sent by `XrayClient.import_execution_results`. -/
structure ImportEntry where
  testKey : String
  status : Status
  comment : String
deriving Repr

/-- The per-test payload of `XrayClient.import_execution_results`: the
comment is truncated to 32000 characters at this transport boundary. -/
def importTests (results : List ResultPayload) : List ImportEntry :=
  results.map (fun r => ⟨r.test_key, r.status, strTake r.comment 32000⟩)

/-- The cache-file states `MappingCache.load` distinguishes: the file is
absent; present with bytes that do not decode as UTF-8 (reading them as
text raises `UnicodeDecodeError`); present with UTF-8 text that is not
valid JSON (`json.load` raises `json.JSONDecodeError`); or present with
a decodable name-to-key mapping. -/
inductive CacheFileState where
  | missing
  | undecodable
  | invalidContent
  | validContent (mapping : List (String × String))
deriving DecidableEq, Repr

/-- `MappingCache.load` (lines 313-324 of `tools/test_script.py`): a
missing file returns the empty mapping; `json.JSONDecodeError` and
`IOError` are caught and return the empty mapping; but the
`UnicodeDecodeError` raised for non-UTF-8 bytes is a `ValueError` that
is neither a `json.JSONDecodeError` nor an `IOError`, so the
`except (json.JSONDecodeError, IOError)` clause does not catch it and
it propagates.  The result is `Except.error` exactly when the Python
method raises, carrying the exception kind. -/
def MappingCache.load : CacheFileState → Except String (List (String × String))
  | CacheFileState.missing => Except.ok []
  | CacheFileState.undecodable => Except.error "UnicodeDecodeError"
  | CacheFileState.invalidContent => Except.ok []
  | CacheFileState.validContent m => Except.ok m

/-- Observable behaviour of one invocation of `main()` in
`tools/test_script.py`: the exit code, whether `JUnitParser.parse` and
`ResultAggregator.aggregate` were invoked, and how many remote
(`XrayClient`) calls were made. -/
structure MainRun where
  exitCode : Int
  parseCalled : Bool
  aggregateCalled : Bool
  remoteCalls : Nat
deriving DecidableEq, Repr

/-- `main()` as the source now stands (lines 624-726): without
credentials it returns 1 immediately; with credentials it prints the
step headers — the calls to `cache.load`, `JUnitParser.parse` (line
659) and `ResultAggregator.aggregate` (line 667) are commented out and
hard-coded counts are printed instead — and with `--dry-run` it returns
0 before step 4 without any remote call.  The non-dry-run continuation
reads a variable that is never assigned (`execution_key`, line 698) and
is not modelled (`none`). -/
def mainModel (credsPresent dryRun : Bool) : Option MainRun :=
  if ¬ credsPresent then some ⟨1, false, false, 0⟩
  else if dryRun then some ⟨0, false, false, 0⟩
  else none

end TestScript

namespace Upload

/-- The `--file-type` choices of `main.py` (`choices=["movie", "stream"]`). -/
inductive FileType where
  | movie
  | stream
deriving DecidableEq, Repr

/-- The single lifecycle rule built by `Bucket.set_lifecycle`. -/
structure LifecycleRule where
  policy_name : String
  expiration_days : Int
  noncurrent : Option Int
deriving DecidableEq, Repr

/-- `Bucket.set_lifecycle` (`storage/bucket.py`, lines 28-52): the
`NoncurrentVersionExpiration` block is added only when the
`noncurrent_expiration_days` argument is truthy (not `None`, not 0). -/
def set_lifecycle (policy_name : String) (expiration_days : Int)
    (noncurrent_expiration_days : Option Int) : LifecycleRule :=
  ⟨policy_name, expiration_days,
    match noncurrent_expiration_days with
    | some d => if d ≠ 0 then some d else none
    | none => none⟩

/-- The bucket configuration performed by `main()` in `main.py`: whether
`set_versioning("Enabled")` was called, and the lifecycle rule passed to
`put_bucket_lifecycle_configuration`, if any. -/
structure BucketPlan where
  versioningEnabled : Bool
  lifecycleRule : Option LifecycleRule
deriving DecidableEq, Repr

/-- The validation `args.lifecycle is not None and args.lifecycle <= 0`. -/
def lifecycleInvalid : Option Int → Bool
  | some d => decide (d ≤ 0)
  | none => false

/-- Python truthiness of the optional integer `lifecycle`. -/
def intOptTruthy : Option Int → Bool
  | some d => decide (d ≠ 0)
  | none => false

/-- The versioning and lifecycle decisions of `main()` in `main.py`
(lines 62-108): the `--versioning` flag is read into `versioning`,
which both file-type branches then overwrite (`True` for movie, `False`
for stream) before the bucket is configured. -/
def mainPlan (file_type : FileType) (versioningFlag : Bool) (lifecycle : Option Int) :
    Except String BucketPlan :=
  if lifecycleInvalid lifecycle then
    Except.error "lifecycle-days must be a positive integer"
  else
    let versioning := versioningFlag
    let versioning :=
      match file_type with
      | FileType.movie => true
      | FileType.stream => false
    let rule : Option LifecycleRule :=
      if intOptTruthy lifecycle && !versioning then
        some (set_lifecycle "ScriptLifecycle" (lifecycle.getD 0) none)
      else if intOptTruthy lifecycle && versioning then
        some (set_lifecycle "ScriptLifecycle" (lifecycle.getD 0) (some (lifecycle.getD 0)))
      else none
    Except.ok ⟨versioning, rule⟩

end Upload

namespace TestScript

/-- Number of `testcase`-tagged elements in a whole document, the root
element included. -/
def countTestcasesDoc (root : XmlElement) : Nat :=
  ((elemsIn [root]).filter (fun e => e.tag == "testcase")).length

/-- A well-formed document whose root element is itself a testcase. -/
def bareTestcaseDoc : XmlElement :=
  ⟨"testcase", [("name", "test_alone")], none, 0, []⟩

/-- A skipped child whose `type` attribute is upper-case `XFAIL`. -/
def upperXfailSkip : XmlElement :=
  ⟨"skipped", [("type", "XFAIL"), ("message", "known bug")], none, 0, []⟩

def upperXfailTestcase : XmlElement :=
  ⟨"testcase", [("name", "test_known")], none, 0, [upperXfailSkip]⟩

/-- A skipped child with lower-case `type="xfail"` (scenario 5). -/
def xfailSkip : XmlElement :=
  ⟨"skipped", [("type", "xfail"), ("message", "known bug")], none, 0, []⟩

def xfailTestcase : XmlElement :=
  ⟨"testcase", [("name", "test_known")], none, 0, [xfailSkip]⟩

/-- A failure child with a message and body text (scenario 2). -/
def failureChild : XmlElement :=
  ⟨"failure", [("message", "timeout")], some "stack...", 0, []⟩

def failingTestcase : XmlElement :=
  ⟨"testcase", [("name", "test_login[chrome]")], none, 0, [failureChild]⟩

def c3Mapping : List (String × String) := [("test_x", "KEY-1")]

def c3Results : ParsedResults :=
  ⟨2, 1, 1, 0,
    [⟨"test_x", "test_x[1]", Status.PASS, "", 0⟩,
     ⟨"test_y", "test_y", Status.FAIL, "boom", 0⟩]⟩

theorem intercalate_singleton (s a : String) : String.intercalate s [a] = a := rfl

/-- A 40000-character test name, to exhibit an untruncated comment. -/
def bigName : String := String.mk (List.replicate 40000 'a')

theorem bigName_len : bigName.length = 40000 := by
  rw [show bigName.length = (List.replicate 40000 'a').length from rfl,
    List.length_replicate]

def bigVariation : TestResult := ⟨"t", bigName, Status.PASS, "", 0⟩

def bigAgg : AggregatedResult := ⟨"KEY-BIG", Status.PASS, [bigVariation], 0⟩

theorem bigAgg_build : bigAgg.build_comment = variationLine bigVariation := by
  have h1 : bigAgg.variations = [bigVariation] := rfl
  have h2 : (bigVariation.status == Status.FAIL && bigVariation.comment != "") = false := rfl
  simp only [AggregatedResult.build_comment, h1]
  simp [h2, intercalate_singleton]

theorem bigAgg_len : 32000 < bigAgg.build_comment.length := by
  rw [bigAgg_build]
  have h1 : variationLine bigVariation =
      statusIcon Status.PASS ++ " " ++ bigName ++ " - " ++ Status.toStr Status.PASS
        ++ " (" ++ fmt2 0 ++ "s)" := rfl
  rw [h1]
  simp only [String.length_append]
  rw [bigName_len]
  have h2 : (statusIcon Status.PASS).length = 6 := by decide
  have h3 : " ".length = 1 := by decide
  have h4 : " - ".length = 3 := by decide
  have h5 : (Status.toStr Status.PASS).length = 4 := by decide
  have h6 : " (".length = 2 := by decide
  have h7 : (fmt2 0).length = 4 := by decide
  have h8 : "s)".length = 2 := by decide
  rw [h2, h3, h4, h5, h6, h7, h8]
  norm_num

/-- **C1.** The aggregator's per-group status update implements exactly
the spec's priority formula, and folding `add_variation` (from the
initial status `PASS` of `AggregatedResult(test_key=key)`) over any
permutation of a variation list yields the same final status. -/
theorem C1_add_variation_priority_rule :
    (∀ s new, updateStatus s new = specStatusUpdate s new) ∧
    (∀ (key : String) (l l' : List TestResult), l.Perm l' →
      (l.foldl AggregatedResult.add_variation (mkAggregated key)).status =
        (l'.foldl AggregatedResult.add_variation (mkAggregated key)).status) := by
  refine ⟨updateStatus_eq_spec, ?_⟩
  intro key l l' h
  rw [status_foldl_add_variation, status_foldl_add_variation]
  exact statusFold_perm _ h

/-- Witness for **C1**: aggregating the variations `[FAIL, PASS]` and
`[PASS, FAIL]` yields the same final status. -/
theorem C1_add_variation_priority_rule_witness :
    ([⟨"test_x", "test_x[1]", Status.FAIL, "boom", 0⟩,
      ⟨"test_x", "test_x[2]", Status.PASS, "", 0⟩] : List TestResult).Perm
        [⟨"test_x", "test_x[2]", Status.PASS, "", 0⟩,
         ⟨"test_x", "test_x[1]", Status.FAIL, "boom", 0⟩] ∧
    (([⟨"test_x", "test_x[1]", Status.FAIL, "boom", 0⟩,
       ⟨"test_x", "test_x[2]", Status.PASS, "", 0⟩] : List TestResult).foldl
        AggregatedResult.add_variation (mkAggregated "KEY-1")).status =
      (([⟨"test_x", "test_x[2]", Status.PASS, "", 0⟩,
         ⟨"test_x", "test_x[1]", Status.FAIL, "boom", 0⟩] : List TestResult).foldl
        AggregatedResult.add_variation (mkAggregated "KEY-1")).status :=
  ⟨List.Perm.swap _ _ _,
   C1_add_variation_priority_rule.2 "KEY-1" _ _ (List.Perm.swap _ _ _)⟩

/-- **C2** (amended): for every parsed document,
`passed + failed + skipped = total`, and `total` equals the number of
`testcase` elements strictly below the root at any nesting depth
(`root.findall(".//testcase")` searches descendants, so a root element
itself tagged `testcase` is not counted — see the counterexample). -/
theorem C2_parse_counts (root : XmlElement) :
    (parse root).passed + (parse root).failed + (parse root).skipped
        = (parse root).total ∧
    (parse root).total
        = ((elemsIn root.children).filter (fun e => e.tag == "testcase")).length := by
  obtain ⟨h1, h2⟩ := foldl_parseStep_counts (findallTestcases root) ⟨0, 0, 0, 0, []⟩
  constructor
  · rw [parse, h2, h1]
    simp
  · rw [parse, h1]
    simp [findallTestcases]

/-- Counterexample for **C2** as stated: a well-formed document whose
root element is itself a `testcase` parses with `total = 0`, although
the document contains one `testcase` element. -/
theorem C2_parse_counts_counterexample :
    (parse bareTestcaseDoc).total = 0 ∧ countTestcasesDoc bareTestcaseDoc = 1 := by
  constructor
  · simp [parse, findallTestcases, bareTestcaseDoc, elemsIn, XmlElement.children]
  · simp [countTestcasesDoc, bareTestcaseDoc, elemsIn, XmlElement.tag]

/-- **C3.** `aggregate` partitions the records: every aggregate key is in
the mapping, every unmatched name is not, no name is both, the matched
variation counts plus the unmatched record count equal `total`, and an
empty mapping yields no aggregates with every record name unmatched. -/
theorem C3_aggregate_partition (mapping : List (String × String))
    (results : ParsedResults) (htot : results.total = results.tests.length) :
    (∀ n ∈ (aggregate mapping results).1.map Prod.fst,
        (mapping.lookup n).isSome = true) ∧
    (∀ n ∈ (aggregate mapping results).2, mapping.lookup n = none) ∧
    (∀ n, ¬ (n ∈ (aggregate mapping results).1.map Prod.fst ∧
        n ∈ (aggregate mapping results).2)) ∧
    (sumVariations (aggregate mapping results).1
        + (results.tests.filter (fun t => mapping.lookup t.name = none)).length
      = results.total) ∧
    (mapping = [] →
      (aggregate mapping results).1 = [] ∧
      ∀ t ∈ results.tests, t.name ∈ (aggregate mapping results).2) := by
  have hkeys := aggregate_fold_keys mapping results.tests ([], [])
    (by intro n hn; cases hn)
  have hunm := aggregate_fold_unmatched mapping results.tests ([], [])
    (by intro n hn; cases hn)
  refine ⟨hkeys, hunm, ?_, ?_, ?_⟩
  · intro n ⟨h1, h2⟩
    have := hkeys n h1
    rw [hunm n h2] at this
    cases this
  · rw [aggregate, aggregate_fold_sum, htot]
    have := length_filter_lookup mapping results.tests
    simp only [sumVariations, List.map_nil, List.sum_nil, Nat.zero_add]
    omega
  · intro hm
    subst hm
    exact ⟨aggregate_fold_empty_map _ _, aggregate_fold_empty_map_names _ _⟩

/-- Witness for **C3**: a two-record run against a one-entry mapping;
one variation lands in the matched group and one record is unmatched. -/
theorem C3_aggregate_partition_witness :
    c3Results.total = c3Results.tests.length ∧
    sumVariations (aggregate c3Mapping c3Results).1
        + (c3Results.tests.filter (fun t => c3Mapping.lookup t.name = none)).length
      = c3Results.total :=
  ⟨rfl, (C3_aggregate_partition c3Mapping c3Results rfl).2.2.2.1⟩

/-- **C4** (amended): for a testcase whose only relevant child is a
skipped element, the xfail test is applied to the *lowercased* `type`
attribute: when it contains `"xfail"` and not `"skip"` the record is
CONDITIONALPASS with detail `"XFAIL: " + message` and bumps the
`passed` counter (not `skipped`); otherwise the record is TODO with the
message (or `"Skipped"` when it is empty). -/
theorem C4_parse_testcase_skipped (tc sk : XmlElement)
    (hf : tc.find "failure" = none) (he : tc.find "error" = none)
    (hs : tc.find "skipped" = some sk) :
    (containsSub (lowerStr (sk.get "type" "")) "xfail" ∧
        ¬ containsSub (lowerStr (sk.get "type" "")) "skip" →
      parse_testcase tc =
        ⟨cleanName (tc.get "name" ""), tc.get "name" "", Status.CONDITIONALPASS,
          "XFAIL: " ++ sk.get "message" "", tc.time⟩ ∧
      ∀ r : ParsedResults,
        (parseStep r tc).passed = r.passed + 1 ∧
        (parseStep r tc).skipped = r.skipped) ∧
    (¬ (containsSub (lowerStr (sk.get "type" "")) "xfail" ∧
        ¬ containsSub (lowerStr (sk.get "type" "")) "skip") →
      parse_testcase tc =
        ⟨cleanName (tc.get "name" ""), tc.get "name" "", Status.TODO,
          if sk.get "message" "" = "" then "Skipped" else sk.get "message" "",
          tc.time⟩) := by
  have hrec : parse_testcase tc =
      if containsSub (lowerStr (sk.get "type" "")) "xfail" ∧
          ¬ containsSub (lowerStr (sk.get "type" "")) "skip" then
        ⟨cleanName (tc.get "name" ""), tc.get "name" "", Status.CONDITIONALPASS,
          "XFAIL: " ++ sk.get "message" "", tc.time⟩
      else
        ⟨cleanName (tc.get "name" ""), tc.get "name" "", Status.TODO,
          if sk.get "message" "" = "" then "Skipped" else sk.get "message" "",
          tc.time⟩ := by
    rw [parse_testcase, hf, he, hs]
  constructor
  · intro hx
    rw [hrec, if_pos hx]
    refine ⟨rfl, ?_⟩
    intro r
    simp [parseStep, hrec, if_pos hx]
  · intro hx
    rw [hrec, if_neg hx]

/-- Witness for **C4** (scenario 5): `type="xfail" message="known bug"`
yields CONDITIONALPASS with detail `"XFAIL: known bug"`. -/
theorem C4_parse_testcase_skipped_witness :
    xfailTestcase.find "failure" = none ∧
    xfailTestcase.find "error" = none ∧
    xfailTestcase.find "skipped" = some xfailSkip ∧
    (containsSub (lowerStr (xfailSkip.get "type" "")) "xfail" ∧
      ¬ containsSub (lowerStr (xfailSkip.get "type" "")) "skip") ∧
    parse_testcase xfailTestcase =
      ⟨cleanName (xfailTestcase.get "name" ""), xfailTestcase.get "name" "",
        Status.CONDITIONALPASS,
        "XFAIL: " ++ xfailSkip.get "message" "", xfailTestcase.time⟩ :=
  ⟨rfl, rfl, rfl, ⟨by decide, by decide⟩,
   ((C4_parse_testcase_skipped xfailTestcase xfailSkip rfl rfl rfl).1
      ⟨by decide, by decide⟩).1⟩

/-- Counterexample for **C4** as stated: a skipped child whose `type`
attribute `"XFAIL"` does *not* contain the substring `"xfail"`, so by
the claim it is "any other skipped child" and should yield TODO; the
code lowercases the attribute first and yields CONDITIONALPASS. -/
theorem C4_parse_testcase_skipped_counterexample :
    upperXfailTestcase.find "failure" = none ∧
    upperXfailTestcase.find "error" = none ∧
    upperXfailTestcase.find "skipped" = some upperXfailSkip ∧
    upperXfailSkip.get "type" "" = "XFAIL" ∧
    ¬ containsSub (upperXfailSkip.get "type" "") "xfail" ∧
    (parse_testcase upperXfailTestcase).status = Status.CONDITIONALPASS ∧
    (parse_testcase upperXfailTestcase).status ≠ Status.TODO :=
  ⟨rfl, rfl, rfl, rfl, by decide, by decide, by decide⟩

/-- **C5.** `clean_name` equals the name truncated at the first space
then at the first `[`; the derivation is idempotent, and names without
spaces or brackets are returned unchanged. -/
theorem C5_cleanName (s : String) :
    cleanName s = specCleanName s ∧
    cleanName (cleanName s) = cleanName s ∧
    ((' ' ∉ s.data ∧ '[' ∉ s.data) → cleanName s = s) :=
  ⟨cleanName_eq_spec s, cleanName_idem s,
   fun h => cleanName_no_space_bracket s
     (fun x hx => ⟨fun he => h.1 (he ▸ hx), fun he => h.2 (he ▸ hx)⟩)⟩

/-- Witness for **C5**: `"test_login"` has no space and no bracket and
is returned unchanged. -/
theorem C5_cleanName_witness :
    (' ' ∉ "test_login".data ∧ '[' ∉ "test_login".data) ∧
    cleanName "test_login" = "test_login" :=
  ⟨⟨by decide, by decide⟩, (C5_cleanName "test_login").2.2 ⟨by decide, by decide⟩⟩

/-- **C6** (amended): a testcase with a failure (or, failing that, an
error) child yields status FAIL with detail equal to the child's
message followed — when the child's body text is non-empty — by a blank
line and the first 2000 characters of that text; with both children
present the failure child is the one used. -/
theorem C6_parse_testcase_failure (tc : XmlElement) :
    (∀ f, tc.find "failure" = some f →
      parse_testcase tc =
        ⟨cleanName (tc.get "name" ""), tc.get "name" "", Status.FAIL,
          f.get "message" "" ++
            (match f.text with
             | some t => if t ≠ "" then "\n\n" ++ strTake t 2000 else ""
             | none => ""),
          tc.time⟩) ∧
    (∀ e, tc.find "failure" = none → tc.find "error" = some e →
      parse_testcase tc =
        ⟨cleanName (tc.get "name" ""), tc.get "name" "", Status.FAIL,
          e.get "message" "" ++
            (match e.text with
             | some t => if t ≠ "" then "\n\n" ++ strTake t 2000 else ""
             | none => ""),
          tc.time⟩) := by
  have hmsg : ∀ x : XmlElement, extract_message x =
      x.get "message" "" ++
        (match x.text with
         | some t => if t ≠ "" then "\n\n" ++ strTake t 2000 else ""
         | none => "") := by
    intro x
    rw [extract_message]
    cases x.text with
    | none => simp
    | some t =>
      by_cases ht : t = ""
      · simp [ht]
      · simp [ht, String.append_assoc]
  constructor
  · intro f hf
    simp only [parse_testcase, hf]
    rw [hmsg]
  · intro e hf he
    simp only [parse_testcase, hf, he]
    rw [hmsg]

/-- Witness for **C6** (scenario 2): failure child
`message="timeout"`, body `"stack..."`. -/
theorem C6_parse_testcase_failure_witness :
    failingTestcase.find "failure" = some failureChild ∧
    parse_testcase failingTestcase =
      ⟨cleanName (failingTestcase.get "name" ""), failingTestcase.get "name" "",
        Status.FAIL,
        failureChild.get "message" "" ++
          (match failureChild.text with
           | some t => if t ≠ "" then "\n\n" ++ strTake t 2000 else ""
           | none => ""),
        failingTestcase.time⟩ :=
  ⟨rfl, (C6_parse_testcase_failure failingTestcase).1 failureChild rfl⟩

/-- Counterexample for **C6** as stated: the detail is not the plain
concatenation of the message and the first 2000 body characters — the
code inserts a blank line (`"\n\n"`) between them. -/
theorem C6_parse_testcase_failure_counterexample :
    (parse_testcase failingTestcase).status = Status.FAIL ∧
    (parse_testcase failingTestcase).comment = "timeout\n\nstack..." ∧
    (parse_testcase failingTestcase).comment ≠ "timeout" ++ strTake "stack..." 2000 :=
  ⟨by decide, by decide, by decide⟩

/-- **C7.** `build_comment` produces exactly the specified layout
(count line only for more than one variation, one line per variation in
order, Failure Details block only when a variation failed with a
non-empty detail, at most the first five, details cut at 1000
characters); the comment is not truncated during construction — a
comment longer than 32000 characters is built in full and only the
transport payload of `import_execution_results` truncates it. -/
theorem C7_build_comment_layout :
    (∀ a : AggregatedResult,
      a.build_comment = String.intercalate "\n" (specCommentLines a)) ∧
    (∀ r : ResultPayload,
      importTests [r] = [⟨r.test_key, r.status, strTake r.comment 32000⟩]) ∧
    (∃ a : AggregatedResult,
      32000 < a.build_comment.length ∧
      (importTests [a.to_dict]).map ImportEntry.comment
        = [strTake a.build_comment 32000]) := by
  refine ⟨?_, fun r => rfl, ⟨bigAgg, bigAgg_len, rfl⟩⟩
  intro a
  simp [AggregatedResult.build_comment, specCommentLines, List.append_assoc]

/-- **C8** (amended): `MappingCache.load` returns the empty mapping,
and does not raise, for a missing cache file and for UTF-8 content that
is not valid JSON; but a cache file whose bytes do not decode as UTF-8
makes it raise `UnicodeDecodeError`, which the
`except (json.JSONDecodeError, IOError)` clause does not catch — that is
the only error kind that escapes. -/
theorem C8_cache_load (fs : CacheFileState) :
    (fs ≠ CacheFileState.undecodable → ∃ m, MappingCache.load fs = Except.ok m) ∧
    MappingCache.load CacheFileState.missing = Except.ok [] ∧
    MappingCache.load CacheFileState.invalidContent = Except.ok [] ∧
    MappingCache.load CacheFileState.undecodable
      = Except.error "UnicodeDecodeError" := by
  refine ⟨?_, rfl, rfl, rfl⟩
  intro hfs
  cases fs with
  | missing => exact ⟨[], rfl⟩
  | undecodable => exact absurd rfl hfs
  | invalidContent => exact ⟨[], rfl⟩
  | validContent m => exact ⟨m, rfl⟩

/-- Witness for **C8**: a missing cache file is not the undecodable
state and yields the empty mapping without raising. -/
theorem C8_cache_load_witness :
    CacheFileState.missing ≠ CacheFileState.undecodable ∧
    ∃ m, MappingCache.load CacheFileState.missing = Except.ok m :=
  ⟨by decide, (C8_cache_load CacheFileState.missing).1 (by decide)⟩

/-- Counterexample for **C8** as stated: a corrupt cache file with
non-UTF-8 bytes is a file state whose content is not valid JSON, yet
`load` raises (`UnicodeDecodeError` escapes the except clause) instead
of returning the empty mapping. -/
theorem C8_cache_load_counterexample :
    MappingCache.load CacheFileState.undecodable
        = Except.error "UnicodeDecodeError" ∧
    MappingCache.load CacheFileState.undecodable ≠ Except.ok [] :=
  ⟨rfl, fun h => Except.noConfusion h⟩

/-- **C9** (evaluation at the failing input): with credentials present
and `--dry-run` set, `main()` exits 0 and makes no remote call, but —
contrary to the claim — neither `JUnitParser.parse` nor
`ResultAggregator.aggregate` is invoked: those calls are commented out
in the source and hard-coded counts are printed instead. -/
theorem C9_dry_run_behaviour :
    mainModel true true = some ⟨0, false, false, 0⟩ := rfl

end TestScript

namespace Upload

/-- **C10.** The `--versioning` flag is ignored; movies always get
versioning (and, with a lifecycle, both current and noncurrent
expiration set to the given days), streams never get versioning and
their lifecycle rule carries no noncurrent expiration. -/
theorem C10_versioning_flag_ignored :
    (∀ (ft : FileType) (vf vf' : Bool) (lc : Option Int),
      mainPlan ft vf lc = mainPlan ft vf' lc) ∧
    (∀ vf : Bool, mainPlan FileType.movie vf none = Except.ok ⟨true, none⟩) ∧
    (∀ (vf : Bool) (d : Int), 0 < d →
      mainPlan FileType.movie vf (some d) =
        Except.ok ⟨true, some ⟨"ScriptLifecycle", d, some d⟩⟩) ∧
    (∀ vf : Bool, mainPlan FileType.stream vf none = Except.ok ⟨false, none⟩) ∧
    (∀ (vf : Bool) (d : Int), 0 < d →
      mainPlan FileType.stream vf (some d) =
        Except.ok ⟨false, some ⟨"ScriptLifecycle", d, none⟩⟩) := by
  refine ⟨fun ft vf vf' lc => rfl, fun vf => rfl, ?_, fun vf => rfl, ?_⟩
  all_goals
    intro vf d hd
    have h1 : ¬ d ≤ 0 := by omega
    have h2 : d ≠ 0 := by omega
    simp [mainPlan, lifecycleInvalid, intOptTruthy, set_lifecycle, h1, h2]

/-- Witness for **C10**: thirty lifecycle days; the movie plan enables
versioning with both expirations, the stream plan (even with
`--versioning` passed) enables neither. -/
theorem C10_versioning_flag_ignored_witness :
    (0 : Int) < 30 ∧
    mainPlan FileType.movie false (some 30) =
      Except.ok ⟨true, some ⟨"ScriptLifecycle", 30, some 30⟩⟩ ∧
    mainPlan FileType.stream true (some 30) =
      Except.ok ⟨false, some ⟨"ScriptLifecycle", 30, none⟩⟩ :=
  ⟨by decide, C10_versioning_flag_ignored.2.2.1 false 30 (by decide),
   C10_versioning_flag_ignored.2.2.2.2 true 30 (by decide)⟩

end Upload
